import Mathlib

/-!
Verification of the ReBAC (relationship-based access control) evaluation
engine specified for the spicedb-test repository.  The repository's own Go
source (`main.go`) is a thin gRPC client: it holds the schema literal, the
four relationship writes and the twelve permission checks, while the engine
itself (schema model, relationship store, permission evaluator, consistency
tokens) lives behind the wire.  Definitions below therefore come from two
places: the demo's data (schema text, write batch, check calls) is embedded
from `src/main.go`, and the engine semantics is modelled from the spec, as
marked on each definition.
-/

namespace SpicedbTest

/-- From `src/main.go` (`pb.ObjectReference`): an object is identified by
its type name and an opaque id. -/
structure ObjectRef where
  objectType : String
  objectId : String
deriving DecidableEq

/-- From `src/main.go` (`pb.SubjectReference`): an object reference plus an
optional relation name; `none` means the subject is a concrete object. -/
structure SubjectRef where
  object : ObjectRef
  optionalRel : Option String := none
deriving DecidableEq

/-- From `src/main.go` (`pb.Relationship`): a tuple
(resource, relation, subject).  The spec states the tuple is uniquely keyed
by this triple. -/
structure Relationship where
  resource : ObjectRef
  relation : String
  subject : SubjectRef
deriving DecidableEq

/-- Modelled from the spec (section 3, Expression): tagged variant built by
the compiler from `+`, `&`, `-`; a leaf is a bare relation or permission
name. -/
inductive Expr where
  | name (n : String)
  | union (l r : Expr)
  | inter (l r : Expr)
  | excl (base sub : Expr)
deriving DecidableEq

/-- Modelled from the spec (section 3, ObjectType): a type definition with
its relation names and its permissions (name paired with expression). -/
structure TypeDef where
  name : String
  relations : List String
  permissions : List (String × Expr)
deriving DecidableEq

/-- Modelled from the spec (section 2, Schema Model): the set of compiled
object type definitions. -/
abbrev SchemaModel := List TypeDef

/-- Look a type definition up by name. -/
def lookupType (sm : SchemaModel) (t : String) : Option TypeDef :=
  sm.find? (fun td => td.name = t)

/-- Look a permission expression up by name inside one type definition. -/
def lookupPerm (perms : List (String × Expr)) (n : String) : Option Expr :=
  (perms.find? (fun p => p.1 = n)).map (·.2)

/-- From `src/main.go` (`pb.CheckPermissionResponse.Permissionship`). -/
inductive Permissionship where
  | HAS_PERMISSION
  | NO_PERMISSION
deriving DecidableEq

/-- Modelled from the spec (sections 4.3 and 7): a check either returns a
definitive permissionship, or fails with `RecursionLimitError` (depth
budget exceeded) or `NotFoundError` (unknown type or permission). -/
inductive CheckResult where
  | ok (p : Permissionship)
  | recursionLimit
  | notFound
deriving DecidableEq

/-- The relationship tuples of one store snapshot. -/
abbrev RelSet := List Relationship

/-- Modelled from the spec (section 4.2, Read): the forward lookup of all
tuples for (resource, relation). -/
def relTuples (rels : RelSet) (resource : ObjectRef) (relName : String) :
    RelSet :=
  rels.filter (fun t => t.resource = resource ∧ t.relation = relName)

mutual

/-- Modelled from the spec (section 4.3, Permission Evaluator): resolve a
name on the resource's type.  A relation name expands its tuples; a
permission name is guarded by the visited set — a re-entered
(resource, permission) pair fails closed to `NO_PERMISSION` — and otherwise
evaluates its expression.  The depth budget is decremented at every
recursive evaluation step; exhausting it fails with
`RecursionLimitError`. -/
def checkName (sm : SchemaModel) (rels : RelSet) (subject : SubjectRef)
    (visited : List (ObjectRef × String)) (resource : ObjectRef)
    (n : String) : Nat → CheckResult
  | 0 => .recursionLimit
  | f + 1 =>
    match lookupType sm resource.objectType with
    | none => .notFound
    | some td =>
      if n ∈ td.relations then
        checkTuples sm rels subject visited (relTuples rels resource n) f
      else
        match lookupPerm td.permissions n with
        | none => .notFound
        | some e =>
          if (resource, n) ∈ visited then .ok .NO_PERMISSION
          else checkExpr sm rels subject ((resource, n) :: visited) resource e f

/-- Modelled from the spec (section 4.3): recursive expression evaluation.
`union` short-circuits on the first `HAS_PERMISSION` (left first), `inter`
short-circuits on the first `NO_PERMISSION`, `excl` holds when the base
holds and the subtrahend does not; errors propagate. -/
def checkExpr (sm : SchemaModel) (rels : RelSet) (subject : SubjectRef)
    (visited : List (ObjectRef × String)) (resource : ObjectRef)
    (e : Expr) : Nat → CheckResult
  | 0 => .recursionLimit
  | f + 1 =>
    match e with
    | .name n => checkName sm rels subject visited resource n f
    | .union a b =>
      match checkExpr sm rels subject visited resource a f with
      | .ok .HAS_PERMISSION => .ok .HAS_PERMISSION
      | .ok .NO_PERMISSION => checkExpr sm rels subject visited resource b f
      | err => err
    | .inter a b =>
      match checkExpr sm rels subject visited resource a f with
      | .ok .HAS_PERMISSION => checkExpr sm rels subject visited resource b f
      | .ok .NO_PERMISSION => .ok .NO_PERMISSION
      | err => err
    | .excl a b =>
      match checkExpr sm rels subject visited resource a f with
      | .ok .HAS_PERMISSION =>
        match checkExpr sm rels subject visited resource b f with
        | .ok .HAS_PERMISSION => .ok .NO_PERMISSION
        | .ok .NO_PERMISSION => .ok .HAS_PERMISSION
        | err => err
      | .ok .NO_PERMISSION => .ok .NO_PERMISSION
      | err => err

/-- Modelled from the spec (section 4.3, Relation node): walk the matching
tuples.  A tuple whose subject is concrete and equals the queried concrete
subject grants the permission; a tuple whose subject carries a relation
triggers subject-set expansion through the same evaluator. -/
def checkTuples (sm : SchemaModel) (rels : RelSet) (subject : SubjectRef)
    (visited : List (ObjectRef × String)) (ts : RelSet) : Nat → CheckResult
  | 0 => .recursionLimit
  | f + 1 =>
    match ts with
    | [] => .ok .NO_PERMISSION
    | t :: rest =>
      match t.subject.optionalRel with
      | none =>
        if t.subject.object = subject.object ∧ subject.optionalRel = none then
          .ok .HAS_PERMISSION
        else checkTuples sm rels subject visited rest f
      | some r2 =>
        match checkName sm rels subject visited t.subject.object r2 f with
        | .ok .HAS_PERMISSION => .ok .HAS_PERMISSION
        | .ok .NO_PERMISSION => checkTuples sm rels subject visited rest f
        | err => err

end

/-- Modelled from the spec (section 4.3, Check contract): a check resolves
the named permission on the resource, starting from an empty visited set. -/
def Check (sm : SchemaModel) (rels : RelSet) (subject : SubjectRef)
    (permName : String) (resource : ObjectRef) (fuel : Nat) : CheckResult :=
  checkName sm rels subject [] resource permName fuel

/-- Modelled from the spec (section 4.3): the evaluator's depth budget used
by the demo-level checks. -/
def depthBudget : Nat := 8

/-- From `src/main.go` (`pb.RelationshipUpdate_OPERATION_TOUCH` /
`DELETE`): the two write operations the spec's store contract admits. -/
inductive Op where
  | TOUCH
  | DELETE
deriving DecidableEq

/-- From `src/main.go` (`pb.RelationshipUpdate`): one update of a write
batch. -/
structure RelationshipUpdate where
  operation : Op
  relationship : Relationship

/-- Modelled from the spec (sections 3 and 4.2): TOUCH upserts the tuple
keyed by its (resource, relation, subject) triple — re-writing an existing
key overwrites rather than duplicating, so writing an identical tuple
leaves the set unchanged. -/
def touch (rels : RelSet) (r : Relationship) : RelSet :=
  if r ∈ rels then rels else rels ++ [r]

/-- Modelled from the spec (section 4.2): DELETE removes-if-present, with
no error if the tuple is absent. -/
def deleteRel (rels : RelSet) (r : Relationship) : RelSet :=
  rels.filter (fun t => t ≠ r)

/-- Apply one update to a snapshot. -/
def applyUpdate (rels : RelSet) (u : RelationshipUpdate) : RelSet :=
  match u.operation with
  | .TOUCH => touch rels u.relationship
  | .DELETE => deleteRel rels u.relationship

/-- Modelled from the spec (section 4.2, Write): an ordered batch applied
as one atomic unit. -/
def applyBatch (rels : RelSet) (us : List RelationshipUpdate) : RelSet :=
  us.foldl applyUpdate rels

/-- Modelled from the spec (sections 3 and 4.2): the versioned store.
`snaps` lists the snapshots committed after the initial empty revision 0,
newest last, so revision `i` indexes into `[] :: snaps`. -/
structure Store where
  snaps : List RelSet

/-- The empty store: only revision 0, holding no tuples. -/
def Store.init : Store := ⟨[]⟩

/-- The store's latest revision number. -/
def Store.latestRev (s : Store) : Nat := s.snaps.length

/-- The snapshot visible at the store's latest revision. -/
def Store.latest (s : Store) : RelSet := s.snaps.getLastD []

/-- Modelled from the spec (section 4.2, Read at a revision): the snapshot
pinned by a revision, or `none` when the revision was never issued. -/
def Store.atRev (s : Store) (r : Nat) : Option RelSet :=
  ([] :: s.snaps).get? r

/-- Modelled from the spec (section 4.2, Write contract): commit the batch
atomically on top of the latest snapshot and return the new revision. -/
def Store.write (s : Store) (us : List RelationshipUpdate) : Store × Nat :=
  (⟨s.snaps ++ [applyBatch s.latest us]⟩, s.snaps.length + 1)

/-- Modelled from the spec (section 4.4): a check that carries no
consistency token evaluates against the store's latest revision at call
time. -/
def checkNoToken (sm : SchemaModel) (s : Store) (subject : SubjectRef)
    (permName : String) (resource : ObjectRef) (fuel : Nat) : CheckResult :=
  Check sm s.latest subject permName resource fuel

/-- Modelled from the spec (sections 4.3 and 4.4): a check pinned to a
revision evaluates the snapshot that revision selects; an unknown revision
fails rather than silently resolving to latest. -/
def checkAtRev (sm : SchemaModel) (s : Store) (rev : Nat)
    (subject : SubjectRef) (permName : String) (resource : ObjectRef)
    (fuel : Nat) : CheckResult :=
  match s.atRev rev with
  | none => .notFound
  | some rels => Check sm rels subject permName resource fuel

/-! The demo's data, embedded from `src/main.go`. -/

/-- From `src/main.go` lines 15-26: the compiled form of the `schema`
string literal.  `namespace/user` declares nothing; `namespace/payment`
declares relations payer, collector, marketplace_owner and permissions
`view = payer + collector + marketplace_owner` (left-associated union) and
`some_restricted_permission = marketplace_owner`. -/
def demoSchema : SchemaModel :=
  [ { name := "namespace/user", relations := [], permissions := [] },
    { name := "namespace/payment",
      relations := ["payer", "collector", "marketplace_owner"],
      permissions :=
        [ ("view",
           .union (.union (.name "payer") (.name "collector"))
             (.name "marketplace_owner")),
          ("some_restricted_permission", .name "marketplace_owner") ] } ]

/-- From `src/main.go` (`evaluatePermissions`): the principal bob. -/
def bob : SubjectRef := ⟨⟨"namespace/user", "bob"⟩, none⟩

/-- From `src/main.go` (`evaluatePermissions`): the principal alice. -/
def alice : SubjectRef := ⟨⟨"namespace/user", "alice"⟩, none⟩

/-- From `src/main.go` (`evaluatePermissions`): the principal john. -/
def john : SubjectRef := ⟨⟨"namespace/user", "john"⟩, none⟩

/-- From `src/main.go` (`evaluatePermissions`): the principal doe. -/
def doe : SubjectRef := ⟨⟨"namespace/user", "doe"⟩, none⟩

/-- From `src/main.go` (`evaluatePermissions`): the resource payment_1. -/
def payment1 : ObjectRef := ⟨"namespace/payment", "payment_1"⟩

/-- From `src/main.go` (`evaluatePermissions`): the resource payment_2. -/
def payment2 : ObjectRef := ⟨"namespace/payment", "payment_2"⟩

/-- From `src/main.go` lines 70-138 (`writeRelationships`): the single
write batch of four TOUCH updates. -/
def demoUpdates : List RelationshipUpdate :=
  [ ⟨.TOUCH, ⟨payment1, "payer", ⟨⟨"namespace/user", "bob"⟩, none⟩⟩⟩,
    ⟨.TOUCH, ⟨payment1, "collector", ⟨⟨"namespace/user", "alice"⟩, none⟩⟩⟩,
    ⟨.TOUCH, ⟨payment2, "collector", ⟨⟨"namespace/user", "john"⟩, none⟩⟩⟩,
    ⟨.TOUCH, ⟨payment2, "marketplace_owner",
      ⟨⟨"namespace/user", "doe"⟩, none⟩⟩⟩ ]

/-- The relationship set visible after the demo's batch commits on the
empty store. -/
def demoRels : RelSet := applyBatch [] demoUpdates

/-- From `src/main.go` (`pb.CheckPermissionRequest`): the request built by
`checkPermissions`.  The demo sets only Resource, Permission and Subject;
the Consistency field (a token pinning a revision) is left unset, which
the field default records. -/
structure CheckPermissionRequest where
  resource : ObjectRef
  permission : String
  subject : SubjectRef
  consistency : Option Nat := none

/-- From `src/main.go` (`pb.CheckPermissionResponse`): the response carries
a permissionship. -/
structure CheckPermissionResponse where
  permissionship : Permissionship

/-- A transport-level error of the CheckPermission RPC, opaque to the
client code. -/
abbrev RpcErr := String

/-- From `src/main.go` lines 246-259 (`checkPermissions`): builds the
request without a consistency token and issues the RPC (passed in as a
function).  A transport error is returned to the caller; otherwise the
response's permissionship is logged and `nil` (here `none`) is returned,
whatever the permissionship was. -/
def checkPermissions
    (rpc : CheckPermissionRequest → Except RpcErr CheckPermissionResponse)
    (subject : SubjectRef) (action : String) (resource : ObjectRef) :
    Option RpcErr :=
  match rpc { resource := resource, permission := action,
              subject := subject } with
  | .error e => some e
  | .ok _ => none

/-- From `src/main.go` lines 191-243 (`evaluatePermissions`): the twelve
CheckPermission requests the demo issues, in order. -/
def demoCheckRequests : List CheckPermissionRequest :=
  [ { resource := payment1, permission := "view", subject := bob },
    { resource := payment1, permission := "view", subject := alice },
    { resource := payment1, permission := "view", subject := john },
    { resource := payment1, permission := "view", subject := doe },
    { resource := payment2, permission := "view", subject := bob },
    { resource := payment2, permission := "view", subject := alice },
    { resource := payment2, permission := "view", subject := john },
    { resource := payment2, permission := "view", subject := doe },
    { resource := payment2, permission := "some_restricted_permission",
      subject := bob },
    { resource := payment2, permission := "some_restricted_permission",
      subject := alice },
    { resource := payment2, permission := "some_restricted_permission",
      subject := john },
    { resource := payment2, permission := "some_restricted_permission",
      subject := doe } ]

/-- The observable events of one run of the demo's `main`. -/
inductive MainEvent where
  | wroteSchema
  | wroteRels
  | checked
  | fatalExit

/-- From `src/main.go` lines 193-243 (`evaluatePermissions`): each
`checkPermissions` call either fails — `main` then terminates through
`log.Fatalf` — or logs and continues with the next check.  The list gives
each successive check's failure outcome. -/
def runChecks : List Bool → List MainEvent
  | [] => []
  | e :: rest => if e then [.fatalExit] else .checked :: runChecks rest

/-- From `src/main.go` lines 32-53 (`main`): initialize the client, write
the schema, write the relationships, then evaluate the permission checks;
any failing step terminates the program through `log.Fatalf`.  The three
booleans give the failure outcomes of client initialization, `writeSchema`
and `writeRelationships`. -/
def mainTrace (clientErr schemaErr relErr : Bool) (checkErrs : List Bool) :
    List MainEvent :=
  if clientErr then [.fatalExit]
  else if schemaErr then [.fatalExit]
  else .wroteSchema ::
    (if relErr then [.fatalExit]
     else .wroteRels :: runChecks checkErrs)

/-- The leaf names an expression references. -/
def Expr.names : Expr → List String
  | .name n => [n]
  | .union a b => a.names ++ b.names
  | .inter a b => a.names ++ b.names
  | .excl a b => a.names ++ b.names

/-- Modelled from the spec (section 8, recursive definitions): a set `S`
of names of `td` forms a genuine permission cycle when every name in `S`
resolves to a permission — never a relation — whose expression's leaves
all lie in `S` again, so no relationship tuple can break the cycle. -/
def cyclicPermSet (td : TypeDef) (S : List String) : Bool :=
  S.all (fun p =>
    !(td.relations.contains p) &&
    (match lookupPerm td.permissions p with
     | none => false
     | some e => e.names.all (fun q => S.contains q)))

/-- A fixture schema whose permissions p and q form a genuine cycle. -/
def cyclicSchema : SchemaModel :=
  [ { name := "namespace/doc", relations := [],
      permissions := [("p", .name "q"), ("q", .name "p")] } ]

/-- A fixture resource of the cyclic schema's type. -/
def doc1 : ObjectRef := ⟨"namespace/doc", "doc_1"⟩

/-! Helper lemmas. -/

theorem touch_self_mem (l : RelSet) (r : Relationship) : r ∈ touch l r := by
  unfold touch
  split
  · assumption
  · simp

theorem touch_touch (l : RelSet) (r : Relationship) :
    touch (touch l r) r = touch l r := by
  unfold touch
  by_cases h : r ∈ l
  · simp [h]
  · simp [h]

theorem touch_count (l : RelSet) (r : Relationship) :
    (touch l r).count r = max (l.count r) 1 := by
  unfold touch
  by_cases h : r ∈ l
  · have h1 : ¬(l.count r = 0) := by
      rw [List.count_eq_zero]
      simpa using h
    rw [if_pos h]
    omega
  · have h0 : l.count r = 0 := List.count_eq_zero.mpr h
    rw [if_neg h, List.count_append, h0]
    simp

theorem latest_write (s : Store) (us : List RelationshipUpdate) :
    (s.write us).1.latest = applyBatch s.latest us := by
  unfold Store.write Store.latest
  simp [List.getLastD_concat]

theorem cons_get_length {α : Type} (l : List α) (a : α) :
    (a :: l).get? l.length = some (l.getLastD a) := by
  induction l generalizing a with
  | nil => rfl
  | cons x xs ih =>
    show (x :: xs).get? xs.length = some ((x :: xs).getLastD a)
    rw [List.getLastD_cons]
    exact ih x

theorem atRev_latest (s : Store) : s.atRev s.latestRev = some s.latest := by
  unfold Store.atRev Store.latestRev Store.latest
  exact cons_get_length s.snaps []

/-! The claims. -/

/-- C2: with the demo schema installed and the batch containing
payer=bob and collector=alice on payment_1 committed, a check without a
token finds that bob can view payment_1 while doe cannot. -/
theorem check_view_payment1 :
    checkNoToken demoSchema (Store.init.write demoUpdates).1 bob "view"
        payment1 depthBudget = .ok .HAS_PERMISSION ∧
    checkNoToken demoSchema (Store.init.write demoUpdates).1 doe "view"
        payment1 depthBudget = .ok .NO_PERMISSION := by
  decide

/-- C3: with collector=john and marketplace_owner=doe on payment_2
committed and `some_restricted_permission = marketplace_owner`, doe holds
some_restricted_permission on payment_2 while john does not. -/
theorem check_restricted_payment2 :
    checkNoToken demoSchema (Store.init.write demoUpdates).1 doe
        "some_restricted_permission" payment2 depthBudget =
      .ok .HAS_PERMISSION ∧
    checkNoToken demoSchema (Store.init.write demoUpdates).1 john
        "some_restricted_permission" payment2 depthBudget =
      .ok .NO_PERMISSION := by
  decide

/-- C4: TOUCH is idempotent on every store state: committing the same
TOUCH twice leaves the same visible relationship set as committing it
once, the touched tuple is visible, and re-writing the key never
duplicates it — its multiplicity after the write is the greater of its
prior multiplicity and one. -/
theorem touch_write_twice (s : Store) (r : Relationship) :
    ((s.write [⟨.TOUCH, r⟩]).1.write [⟨.TOUCH, r⟩]).1.latest =
      (s.write [⟨.TOUCH, r⟩]).1.latest ∧
    r ∈ (s.write [⟨.TOUCH, r⟩]).1.latest ∧
    (s.write [⟨.TOUCH, r⟩]).1.latest.count r = max (s.latest.count r) 1 := by
  have h1 : (s.write [⟨.TOUCH, r⟩]).1.latest = touch s.latest r := by
    rw [latest_write]; rfl
  refine ⟨?_, ?_, ?_⟩
  · rw [latest_write, h1]
    show touch (touch s.latest r) r = touch s.latest r
    exact touch_touch s.latest r
  · rw [h1]; exact touch_self_mem s.latest r
  · rw [h1]; exact touch_count s.latest r

/-- C5: a batch deleting a tuple absent from the store commits without
error — a fresh revision is still returned — and leaves the visible
relationship set unchanged. -/
theorem delete_absent (s : Store) (r : Relationship)
    (h : r ∉ s.latest) :
    (s.write [⟨.DELETE, r⟩]).1.latest = s.latest ∧
    (s.write [⟨.DELETE, r⟩]).2 = s.latestRev + 1 := by
  constructor
  · rw [latest_write]
    show deleteRel s.latest r = s.latest
    unfold deleteRel
    refine List.filter_eq_self.mpr ?_
    intro a ha
    simp only [ne_eq, decide_eq_true_eq]
    rintro rfl
    exact h ha
  · rfl

/-- Witness for C5 at the empty store and the demo's payer tuple. -/
theorem delete_absent_witness :
    ((⟨payment1, "payer", ⟨⟨"namespace/user", "bob"⟩, none⟩⟩ : Relationship)
        ∉ Store.init.latest) ∧
    ((Store.init.write
        [⟨.DELETE, ⟨payment1, "payer",
          ⟨⟨"namespace/user", "bob"⟩, none⟩⟩⟩]).1.latest =
      Store.init.latest ∧
    (Store.init.write
        [⟨.DELETE, ⟨payment1, "payer",
          ⟨⟨"namespace/user", "bob"⟩, none⟩⟩⟩]).2 =
      Store.init.latestRev + 1) :=
  ⟨by decide, delete_absent Store.init _ (by decide)⟩

/-- C8: whenever the CheckPermission RPC returns a response rather than a
transport error, the demo's `checkPermissions` returns `nil`, whatever
permissionship the response carries. -/
theorem checkPermissions_ok
    (rpc : CheckPermissionRequest → Except RpcErr CheckPermissionResponse)
    (subject : SubjectRef) (action : String) (resource : ObjectRef)
    (resp : CheckPermissionResponse)
    (h : rpc { resource := resource, permission := action,
               subject := subject } = .ok resp) :
    checkPermissions rpc subject action resource = none := by
  unfold checkPermissions
  rw [h]

/-- Witness for C8 with an RPC returning NO_PERMISSION. -/
theorem checkPermissions_ok_witness :
    ((fun _ => Except.ok ⟨.NO_PERMISSION⟩ :
        CheckPermissionRequest → Except RpcErr CheckPermissionResponse)
      { resource := payment1, permission := "view", subject := bob } =
        .ok ⟨.NO_PERMISSION⟩) ∧
    checkPermissions (fun _ => .ok ⟨.NO_PERMISSION⟩) bob "view" payment1 =
      none :=
  ⟨rfl, checkPermissions_ok _ bob "view" payment1 ⟨.NO_PERMISSION⟩ rfl⟩

/-- C9: every update of the demo's single write batch is a TOUCH whose
subject is a concrete object (no optional subject relation); the committed
set is exactly the four tuples (payment_1, payer, bob),
(payment_1, collector, alice), (payment_2, collector, john),
(payment_2, marketplace_owner, doe); and every visible tuple's subject is
concrete, so no check over this set can reach the evaluator's subject-set
expansion branch. -/
theorem demo_batch_shape :
    demoUpdates.all (fun u =>
      u.operation == .TOUCH && u.relationship.subject.optionalRel.isNone) =
        true ∧
    demoRels =
      [ ⟨payment1, "payer", ⟨⟨"namespace/user", "bob"⟩, none⟩⟩,
        ⟨payment1, "collector", ⟨⟨"namespace/user", "alice"⟩, none⟩⟩,
        ⟨payment2, "collector", ⟨⟨"namespace/user", "john"⟩, none⟩⟩,
        ⟨payment2, "marketplace_owner",
          ⟨⟨"namespace/user", "doe"⟩, none⟩⟩ ] ∧
    demoRels.all (fun t => t.subject.optionalRel.isNone) = true := by
  decide

/-- C1: over every schema model, relationship snapshot, subject, resource,
visited set and depth budget, when both operands evaluate to a definitive
permissionship, `union` grants iff either operand grants, `inter` grants
iff both do, and `excl` grants iff the base grants and the subtrahend does
not. -/
theorem expr_op_semantics (sm : SchemaModel) (rels : RelSet)
    (subject : SubjectRef) (visited : List (ObjectRef × String))
    (resource : ObjectRef) (a b : Expr) (f : Nat)
    (pa pb : Permissionship)
    (ha : checkExpr sm rels subject visited resource a f = .ok pa)
    (hb : checkExpr sm rels subject visited resource b f = .ok pb) :
    (checkExpr sm rels subject visited resource (.union a b) (f + 1) =
        .ok .HAS_PERMISSION ↔
      pa = .HAS_PERMISSION ∨ pb = .HAS_PERMISSION) ∧
    (checkExpr sm rels subject visited resource (.inter a b) (f + 1) =
        .ok .HAS_PERMISSION ↔
      pa = .HAS_PERMISSION ∧ pb = .HAS_PERMISSION) ∧
    (checkExpr sm rels subject visited resource (.excl a b) (f + 1) =
        .ok .HAS_PERMISSION ↔
      pa = .HAS_PERMISSION ∧ pb = .NO_PERMISSION) := by
  cases pa <;> cases pb <;> simp [checkExpr, ha, hb]

/-- Witness for C1 at the demo data: payer grants bob view-standing on
payment_1, collector does not. -/
theorem expr_op_semantics_witness :
    checkExpr demoSchema demoRels bob [] payment1 (.name "payer") 10 =
      .ok .HAS_PERMISSION ∧
    checkExpr demoSchema demoRels bob [] payment1 (.name "collector") 10 =
      .ok .NO_PERMISSION ∧
    ((checkExpr demoSchema demoRels bob [] payment1
          (.union (.name "payer") (.name "collector")) 11 =
        .ok .HAS_PERMISSION ↔
      (Permissionship.HAS_PERMISSION = .HAS_PERMISSION ∨
        Permissionship.NO_PERMISSION = .HAS_PERMISSION)) ∧
     (checkExpr demoSchema demoRels bob [] payment1
          (.inter (.name "payer") (.name "collector")) 11 =
        .ok .HAS_PERMISSION ↔
      (Permissionship.HAS_PERMISSION = .HAS_PERMISSION ∧
        Permissionship.NO_PERMISSION = .HAS_PERMISSION)) ∧
     (checkExpr demoSchema demoRels bob [] payment1
          (.excl (.name "payer") (.name "collector")) 11 =
        .ok .HAS_PERMISSION ↔
      (Permissionship.HAS_PERMISSION = .HAS_PERMISSION ∧
        Permissionship.NO_PERMISSION = .NO_PERMISSION))) :=
  ⟨by decide, by decide,
    expr_op_semantics demoSchema demoRels bob [] payment1
      (.name "payer") (.name "collector") 10 .HAS_PERMISSION .NO_PERMISSION
      (by decide) (by decide)⟩

/-- Inside a genuinely cyclic permission set, no evaluation ever grants:
every name resolution and every expression whose leaves stay in the set
returns NO_PERMISSION or RecursionLimitError, at every depth budget. -/
theorem cyclic_aux (sm : SchemaModel) (td : TypeDef) (resource : ObjectRef)
    (S : List String)
    (h_td : lookupType sm resource.objectType = some td)
    (hS : cyclicPermSet td S = true)
    (rels : RelSet) (subject : SubjectRef) :
    ∀ fuel : Nat,
      (∀ n ∈ S, ∀ visited,
        checkName sm rels subject visited resource n fuel =
            .ok .NO_PERMISSION ∨
        checkName sm rels subject visited resource n fuel =
            .recursionLimit) ∧
      (∀ e : Expr, (∀ q ∈ e.names, q ∈ S) → ∀ visited,
        checkExpr sm rels subject visited resource e fuel =
            .ok .NO_PERMISSION ∨
        checkExpr sm rels subject visited resource e fuel =
            .recursionLimit) := by
  intro fuel
  induction fuel with
  | zero => exact ⟨fun n _ visited => Or.inr rfl, fun e _ visited => Or.inr rfl⟩
  | succ f ih =>
    obtain ⟨ihName, ihExpr⟩ := ih
    constructor
    · intro n hn visited
      have hfacts := List.all_eq_true.mp hS n hn
      rw [Bool.and_eq_true] at hfacts
      obtain ⟨hrel, hperm⟩ := hfacts
      have hrel2 : n ∉ td.relations := by simpa using hrel
      cases hlp : lookupPerm td.permissions n with
      | none => rw [hlp] at hperm; exact absurd hperm (by simp)
      | some e =>
        rw [hlp] at hperm
        have hnames : ∀ q ∈ e.names, q ∈ S := by
          intro q hq
          have := List.all_eq_true.mp hperm q hq
          simpa using this
        simp only [checkName, h_td]
        rw [if_neg hrel2]
        simp only [hlp]
        by_cases hv : (resource, n) ∈ visited
        · rw [if_pos hv]; exact Or.inl rfl
        · rw [if_neg hv]; exact ihExpr e hnames _
    · intro e he visited
      cases e with
      | name n =>
        simp only [checkExpr]
        exact ihName n (he n (by simp [Expr.names])) visited
      | union a b =>
        have hsub : ∀ q ∈ a.names, q ∈ S := by
          intro q hq; exact he q (by simp [Expr.names, hq])
        have hsub2 : ∀ q ∈ b.names, q ∈ S := by
          intro q hq; exact he q (by simp [Expr.names, hq])
        simp only [checkExpr]
        rcases ihExpr a hsub visited with h1 | h1 <;> rw [h1]
        · exact ihExpr b hsub2 visited
        · exact Or.inr rfl
      | inter a b =>
        have hsub : ∀ q ∈ a.names, q ∈ S := by
          intro q hq; exact he q (by simp [Expr.names, hq])
        simp only [checkExpr]
        rcases ihExpr a hsub visited with h1 | h1 <;> rw [h1]
        · exact Or.inl rfl
        · exact Or.inr rfl
      | excl a b =>
        have hsub : ∀ q ∈ a.names, q ∈ S := by
          intro q hq; exact he q (by simp [Expr.names, hq])
        simp only [checkExpr]
        rcases ihExpr a hsub visited with h1 | h1 <;> rw [h1]
        · exact Or.inl rfl
        · exact Or.inr rfl

/-- C6: on a schema whose permission names `S` form a genuine cycle on the
resource's type (no relationship tuple can break it), every check of a
permission in `S` terminates with NO_PERMISSION or RecursionLimitError —
never a grant — at every relationship set, subject and depth budget; and a
re-entered (resource, permission) pair is answered NO_PERMISSION
directly. -/
theorem cyclic_check_fails_closed (sm : SchemaModel) (td : TypeDef)
    (resource : ObjectRef) (S : List String) (n : String)
    (rels : RelSet) (subject : SubjectRef)
    (visited : List (ObjectRef × String)) (fuel : Nat)
    (h_td : lookupType sm resource.objectType = some td)
    (hS : cyclicPermSet td S = true)
    (hn : n ∈ S)
    (hv : (resource, n) ∈ visited) :
    (Check sm rels subject n resource fuel = .ok .NO_PERMISSION ∨
     Check sm rels subject n resource fuel = .recursionLimit) ∧
    checkName sm rels subject visited resource n (fuel + 1) =
      .ok .NO_PERMISSION := by
  constructor
  · exact (cyclic_aux sm td resource S h_td hS rels subject fuel).1 n hn []
  · have hfacts := List.all_eq_true.mp hS n hn
    rw [Bool.and_eq_true] at hfacts
    obtain ⟨hrel, hperm⟩ := hfacts
    have hrel2 : n ∉ td.relations := by simpa using hrel
    cases hlp : lookupPerm td.permissions n with
    | none => rw [hlp] at hperm; exact absurd hperm (by simp)
    | some e =>
      simp only [checkName, h_td]
      rw [if_neg hrel2]
      simp only [hlp]
      rw [if_pos hv]

/-- Witness for C6 at the fixture cycle p ↔ q with no tuples. -/
theorem cyclic_check_fails_closed_witness :
    (lookupType cyclicSchema doc1.objectType =
      some { name := "namespace/doc", relations := [],
             permissions := [("p", .name "q"), ("q", .name "p")] }) ∧
    cyclicPermSet
      { name := "namespace/doc", relations := [],
        permissions := [("p", .name "q"), ("q", .name "p")] }
      ["p", "q"] = true ∧
    ("p" ∈ (["p", "q"] : List String)) ∧
    ((doc1, "p") ∈ ([(doc1, "p")] : List (ObjectRef × String))) ∧
    ((Check cyclicSchema [] bob "p" doc1 10 = .ok .NO_PERMISSION ∨
      Check cyclicSchema [] bob "p" doc1 10 = .recursionLimit) ∧
     checkName cyclicSchema [] bob [(doc1, "p")] doc1 "p" 11 =
       .ok .NO_PERMISSION) :=
  ⟨by decide, by decide, by decide, by decide,
    cyclic_check_fails_closed cyclicSchema
      { name := "namespace/doc", relations := [],
        permissions := [("p", .name "q"), ("q", .name "p")] }
      doc1 ["p", "q"] "p" [] bob
      [(doc1, "p")] 10 (by decide) (by decide) (by decide) (by decide)⟩

theorem get_append_length {α : Type} (l : List α) (x : α) :
    (l ++ [x]).get? l.length = some x := by
  induction l with
  | nil => rfl
  | cons a as ih => exact ih

/-- C7: a check without a consistency token evaluates at the store's
latest revision at call time; supplying the writer's returned revision to
a later check pins it to exactly the post-write snapshot (read-after-
write); the demo's twelve CheckPermission requests all leave the
consistency token unset — and indeed the same tokenless check observes
nothing before the demo's write commits and the write afterwards. -/
theorem no_token_uses_latest :
    (∀ (sm : SchemaModel) (s : Store) (subject : SubjectRef)
        (perm : String) (resource : ObjectRef) (fuel : Nat),
      checkNoToken sm s subject perm resource fuel =
        checkAtRev sm s s.latestRev subject perm resource fuel) ∧
    (∀ (sm : SchemaModel) (s : Store) (us : List RelationshipUpdate)
        (subject : SubjectRef) (perm : String) (resource : ObjectRef)
        (fuel : Nat),
      checkAtRev sm (s.write us).1 (s.write us).2 subject perm resource
          fuel =
        Check sm (applyBatch s.latest us) subject perm resource fuel) ∧
    demoCheckRequests.all (fun q => q.consistency.isNone) = true ∧
    (checkNoToken demoSchema Store.init bob "view" payment1 depthBudget =
        .ok .NO_PERMISSION ∧
     checkNoToken demoSchema (Store.init.write demoUpdates).1 bob "view"
        payment1 depthBudget = .ok .HAS_PERMISSION) := by
  refine ⟨?_, ?_, by decide, by decide, by decide⟩
  · intro sm s subject perm resource fuel
    unfold checkNoToken checkAtRev
    rw [atRev_latest]
  · intro sm s us subject perm resource fuel
    unfold checkAtRev
    have h : (s.write us).1.atRev (s.write us).2 =
        some (applyBatch s.latest us) := by
      unfold Store.write Store.atRev
      exact get_append_length ([] :: s.snaps) (applyBatch s.latest us)
    rw [h]

/-- C10: in the demo's `main`, a failing client initialization, schema
write or relationship write ends the run through `log.Fatalf` before any
later write or check; a successful run emits the schema write, then the
relationship write, then the checks; and the checks run in order until
the first failing one, which ends the run through `log.Fatalf` with no
further checks. -/
theorem main_step_ordering :
    (∀ (s r : Bool) (es : List Bool),
      mainTrace true s r es = [.fatalExit]) ∧
    (∀ (r : Bool) (es : List Bool),
      mainTrace false true r es = [.fatalExit]) ∧
    (∀ es : List Bool,
      mainTrace false false true es = [.wroteSchema, .fatalExit]) ∧
    (∀ es : List Bool,
      mainTrace false false false es =
        .wroteSchema :: .wroteRels :: runChecks es) ∧
    (∀ es : List Bool,
      runChecks es =
        (es.takeWhile (fun b => !b)).map (fun _ => MainEvent.checked) ++
          (if true ∈ es then [MainEvent.fatalExit] else [])) := by
  refine ⟨fun s r es => rfl, fun r es => rfl, fun es => rfl,
    fun es => rfl, ?_⟩
  intro es
  induction es with
  | nil => rfl
  | cons e rest ih =>
    cases e
    · simp [runChecks, List.takeWhile_cons, ih]
    · simp [runChecks, List.takeWhile_cons]

end SpicedbTest
